import Mathlib

/-!
# Verification of the pricing-API request logic

A shallow embedding of the request-validation, domain-resolution, prediction
and batch-aggregation logic of the Flask pricing service (`app.py`), together
with theorems settling the specification claims about it.

Modelling conventions:
* Python strings are `List Char`; `s.lower()` is `pyLower` (ASCII lowering
  plus the accented capital that occurs in this repository's category names);
  Python's substring test `a in b` is `pyIn`.
* Python floats are modelled as rationals `ℚ`; Python's `round(x, n)`
  (round-half-to-even) is `pyRound n`.
* The trained regression model and the fitted label encoder are pickled
  artifacts, not source files.  The model is an opaque function parameter
  `mf : ℕ → ℚ → ℚ → ℚ → ℚ` (code, competitor price, production cost, desired
  margin ↦ predicted price).  The encoder is modelled from the spec: a list
  `classes` of distinct category names, `transform` mapping a name to its
  index, and decoding mapping an index to the name at that position.
* A JSON value that may be absent is an `Option`; a missing key yields `none`.
-/

set_option maxHeartbeats 1000000

namespace PricingAPI

/-- Python `str.lower()` on one character: ASCII lowering, plus the accented
capital `É` (the only non-ASCII capital in this repository's category names),
which Python lowers but ASCII-only lowering would not. -/
def pyLowerChar (c : Char) : Char :=
  if c = 'É' then 'é' else c.toLower

/-- Python `s.lower()` on a string. -/
def pyLower (s : List Char) : List Char := s.map pyLowerChar

/-- Python's substring containment test `a in b` for strings. -/
def pyIn (a b : List Char) : Bool := decide (a <:+: b)

/-- Round half to even to an integer, as Python's `round` does on exact
values. -/
def roundHalfEven (q : ℚ) : ℤ :=
  if q - ⌊q⌋ < 1/2 then ⌊q⌋
  else if 1/2 < q - ⌊q⌋ then ⌊q⌋ + 1
  else if ⌊q⌋ % 2 = 0 then ⌊q⌋ else ⌊q⌋ + 1

/-- Python's `round(x, n)` for `n` decimal digits, on exact values. -/
def pyRound (n : ℕ) (q : ℚ) : ℚ := (roundHalfEven (q * 10 ^ n) : ℚ) / 10 ^ n

/-- `Modelled from the spec:` the fitted `LabelEncoder` artifact is not under
`src/`; per spec §3 it is a bijective mapping between the category names and
dense codes `0..N-1` in class order, so `transform` of a name is its index in
the class list. -/
def transform (classes : List (List Char)) (d : List Char) : ℕ :=
  classes.indexOf d

/-- The `domaine` field of a request: a JSON string or a number coerced by
`int(...)` (`app.py` lines 163, 179). -/
inductive DomVal where
  | str (s : List Char)
  | int (z : ℤ)
deriving DecidableEq

/-- Outcome of domain resolution: canonical name and code, or one of the two
error responses of `app.py` lines 171-175 / 182-186. -/
inductive ResolveResult where
  | ok (nom : List Char) (code : ℕ)
  | errNotRecognized (input : List Char)
  | errInvalidCode (z : ℤ)
deriving DecidableEq

/-- Domain resolution of the single-prediction path (`app.py` lines 163-187):
exact match, else case-insensitive substring match in BOTH directions
(`domaine.lower() in d.lower() or d.lower() in domaine.lower()`), taking the
first match in class order; an integer code is bounds-checked and decoded. -/
def resolveDomainSingle (classes : List (List Char)) (dv : DomVal) : ResolveResult :=
  match dv with
  | .str s =>
    if s ∈ classes then .ok s (transform classes s)
    else
      match classes.filter
          (fun d => pyIn (pyLower s) (pyLower d) || pyIn (pyLower d) (pyLower s)) with
      | [] => .errNotRecognized s
      | d :: _ => .ok d (transform classes d)
  | .int z =>
    if h : 0 ≤ z ∧ z < (classes.length : ℤ) then
      .ok (classes.get ⟨z.toNat, by omega⟩) z.toNat
    else .errInvalidCode z

/-- Domain resolution of the batch path (`app.py` lines 311-336): identical
except that the fuzzy filter tests only ONE direction,
`domaine.lower() in d.lower()` (line 313). -/
def resolveDomainBatch (classes : List (List Char)) (dv : DomVal) : ResolveResult :=
  match dv with
  | .str s =>
    if s ∈ classes then .ok s (transform classes s)
    else
      match classes.filter (fun d => pyIn (pyLower s) (pyLower d)) with
      | [] => .errNotRecognized s
      | d :: _ => .ok d (transform classes d)
  | .int z =>
    if h : 0 ≤ z ∧ z < (classes.length : ℤ) then
      .ok (classes.get ⟨z.toNat, by omega⟩) z.toNat
    else .errInvalidCode z

/-- The eight category names appearing in this repository
(`get_domain_description`, `app.py` lines 96-105), in the encoder's sorted
class order. -/
def classes8 : List (List Char) :=
  ["Alimentation".toList, "Automobile".toList, "Beauté".toList,
   "Livres".toList, "Maison".toList, "Mode".toList, "Sport".toList,
   "Électronique".toList]

/-- Message of `validate_numeric_ranges` for a negative competitor price. -/
def err_prix : List Char := "prix_concurrent doit être positif".toList

/-- Message of `validate_numeric_ranges` for a negative production cost. -/
def err_cout : List Char := "cout_production doit être positif".toList

/-- Message of `validate_numeric_ranges` for a negative desired margin. -/
def err_marge : List Char := "marge_voulue doit être positive".toList

/-- Business-rule message of `validate_numeric_ranges`. -/
def err_ratio : List Char :=
  "cout_production semble trop élevé par rapport au prix_concurrent".toList

/-- `validate_numeric_ranges` (`app.py` lines 108-118): one message appended
per strictly negative field, plus the business-rule message when
`cout_production > prix_concurrent * 0.9`. -/
def validate_numeric_ranges (prix_concurrent cout_production marge_voulue : ℚ) :
    List (List Char) :=
  (if prix_concurrent < 0 then [err_prix] else []) ++
  (if cout_production < 0 then [err_cout] else []) ++
  (if marge_voulue < 0 then [err_marge] else []) ++
  (if cout_production > prix_concurrent * (9/10) then [err_ratio] else [])

/-- Python truthiness of an optional float: `None` and `0.0` are falsy. -/
def pyTruthyQ : Option ℚ → Bool
  | none => false
  | some q => decide (q ≠ 0)

/-- The strategy classification (`app.py` lines 226-230).  The guards are the
literal Python conditions `ratio_concurrent and ratio_concurrent < 0.9`
(resp. `> 1.1`), where the first conjunct is a truthiness test. -/
def strategieOf (ratio_concurrent : Option ℚ) : List Char :=
  if pyTruthyQ ratio_concurrent && decide (ratio_concurrent.getD 0 < 9/10) then
    "Agressive (prix bas)".toList
  else if pyTruthyQ ratio_concurrent && decide (11/10 < ratio_concurrent.getD 0) then
    "Premium (prix élevé)".toList
  else "Équilibrée".toList

/-- The success body of `/predict` (`app.py` lines 231-252), fields in source
order; request echoes kept where claims mention them. -/
structure SuccessBody where
  prix_predit : ℚ
  domaine : List Char
  domaine_encode : ℕ
  prix_concurrent : ℚ
  cout_production : ℚ
  marge_voulue : ℚ
  marge_realisee : ℚ
  benefice_unitaire : ℚ
  ratio_prix_concurrent : Option ℚ
  strategie_prix : List Char
  competitivite : List Char
  rentabilite : List Char
deriving DecidableEq

/-- Builds the `/predict` success response (`app.py` lines 222-252) from the
resolved domain, the model output and the validated numbers. -/
def mkSuccessBody (nom : List Char) (code : ℕ)
    (predicted_price prix_concurrent cout_production marge_voulue : ℚ) :
    SuccessBody :=
  let marge_calculee : ℚ :=
    if 0 < cout_production then (predicted_price - cout_production) / cout_production
    else 0
  let benefice_unitaire := predicted_price - cout_production
  let ratio_concurrent : Option ℚ :=
    if 0 < prix_concurrent then some (predicted_price / prix_concurrent) else none
  { prix_predit := pyRound 2 predicted_price
    domaine := nom
    domaine_encode := code
    prix_concurrent := prix_concurrent
    cout_production := cout_production
    marge_voulue := marge_voulue
    marge_realisee := pyRound 4 marge_calculee
    benefice_unitaire := pyRound 2 benefice_unitaire
    ratio_prix_concurrent :=
      if pyTruthyQ ratio_concurrent then some (pyRound 3 (ratio_concurrent.getD 0))
      else none
    strategie_prix := strategieOf ratio_concurrent
    competitivite :=
      if pyTruthyQ ratio_concurrent && decide (19/20 ≤ ratio_concurrent.getD 0) &&
          decide (ratio_concurrent.getD 0 ≤ 21/20) then "Compétitif".toList
      else "À ajuster".toList
    rentabilite :=
      if marge_voulue * (4/5) ≤ marge_calculee then "Bonne".toList
      else "Faible".toList }

/-- A request record: the four JSON fields, each possibly absent.  Numeric
fields are already rationals (the claims under study do not involve
`float(...)` coercion failures). -/
structure Record where
  domaine : Option DomVal
  prix_concurrent : Option ℚ
  cout_production : Option ℚ
  marge_voulue : Option ℚ
deriving DecidableEq

/-- The missing-field names, in the order `app.py` lines 144-148 appends
them. -/
def missingOf (r : Record) : List (List Char) :=
  (if r.domaine = none then ["domaine".toList] else []) ++
  (if r.prix_concurrent = none then ["prix_concurrent".toList] else []) ++
  (if r.cout_production = none then ["cout_production".toList] else []) ++
  (if r.marge_voulue = none then ["marge_voulue".toList] else [])

/-- The distinct response shapes of `/predict`.  `noJson` is the
`'Aucune donnée JSON fournie'` + `format_attendu` body (lines 131-139);
`missingFields` carries `manquantes` and the fixed `exemple_complet`
payload (lines 151-161); each non-success constructor is HTTP 400 except
`notLoaded`, which is 500. -/
inductive PredictResponse where
  | notLoaded
  | noJson
  | missingFields (manquantes : List (List Char))
  | domainNotRecognized (input : List Char)
  | invalidCode (z : ℤ)
  | validationErrors (details : List (List Char))
  | success (body : SuccessBody)
deriving DecidableEq

/-- The `/predict` handler (`app.py` lines 120-254).  `mf` is the opaque
regression model (code, competitor price, cost, margin ↦ predicted price);
`payload = none` models `request.get_json()` being absent or falsy. -/
def predict (model_loaded : Bool) (classes : List (List Char))
    (mf : ℕ → ℚ → ℚ → ℚ → ℚ) (payload : Option Record) : PredictResponse :=
  if model_loaded = false then .notLoaded
  else
    match payload with
    | none => .noJson
    | some data =>
      match data.domaine, data.prix_concurrent, data.cout_production,
          data.marge_voulue with
      | some dv, some prix_concurrent, some cout_production, some marge_voulue =>
        (match resolveDomainSingle classes dv with
         | .errNotRecognized s => .domainNotRecognized s
         | .errInvalidCode z => .invalidCode z
         | .ok nom code =>
           let validation_errors :=
             validate_numeric_ranges prix_concurrent cout_production marge_voulue
           if validation_errors ≠ [] then .validationErrors validation_errors
           else
             .success (mkSuccessBody nom code
               (mf code prix_concurrent cout_production marge_voulue)
               prix_concurrent cout_production marge_voulue))
      | _, _, _, _ => .missingFields (missingOf data)

/-- The error shapes of one batch entry (`app.py` lines 301-366). -/
inductive BatchErr where
  | missing (manquantes : List (List Char))
  | domainNotRecognized (input : List Char)
  | invalidCode (z : ℤ)
  | validation (details : List (List Char))
deriving DecidableEq

/-- One entry of the batch `results` list: `statut` is `success` exactly for
the first constructor (`app.py` lines 376-384). -/
inductive BatchItem where
  | success (prix_predit : ℚ) (domaine : List Char) (marge_realisee : ℚ)
      (ratio_concurrent : Option ℚ)
  | error (why : BatchErr)
deriving DecidableEq

/-- `statut == 'success'` test on a batch entry. -/
def BatchItem.isSuccess : BatchItem → Bool
  | .success _ _ _ _ => true
  | .error _ => false

/-- Per-record logic of `/predict_batch` (`app.py` lines 290-391): same shape
as `/predict` but with the batch (one-direction) fuzzy matcher and no
strategy/competitiveness/profitability fields. -/
def processItem (classes : List (List Char)) (mf : ℕ → ℚ → ℚ → ℚ → ℚ)
    (item : Record) : BatchItem :=
  match item.domaine, item.prix_concurrent, item.cout_production,
      item.marge_voulue with
  | some dv, some prix_concurrent, some cout_production, some marge_voulue =>
    (match resolveDomainBatch classes dv with
     | .errNotRecognized s => .error (.domainNotRecognized s)
     | .errInvalidCode z => .error (.invalidCode z)
     | .ok nom code =>
       let validation_errors :=
         validate_numeric_ranges prix_concurrent cout_production marge_voulue
       if validation_errors ≠ [] then .error (.validation validation_errors)
       else
         let predicted_price := mf code prix_concurrent cout_production marge_voulue
         let marge_calculee : ℚ :=
           if 0 < cout_production then
             (predicted_price - cout_production) / cout_production
           else 0
         let ratio_concurrent : Option ℚ :=
           if 0 < prix_concurrent then some (predicted_price / prix_concurrent)
           else none
         .success (pyRound 2 predicted_price) nom (pyRound 4 marge_calculee)
           (if pyTruthyQ ratio_concurrent then
              some (pyRound 3 (ratio_concurrent.getD 0))
            else none))
  | _, _, _, _ => .error (.missing (missingOf item))

/-- Python's `min` over a list, folding the binary minimum from the head;
the empty case (on which Python raises) is never reached behind the
nonemptiness guard of `app.py` line 393. -/
def listMin : List ℚ → ℚ
  | [] => 0
  | x :: xs => xs.foldl min x

/-- Python's `max` over a list, as `listMin`. -/
def listMax : List ℚ → ℚ
  | [] => 0
  | x :: xs => xs.foldl max x

/-- The `prix_range` summary of the batch statistics (`app.py` lines
392-401). -/
structure PriceRange where
  min : ℚ
  max : ℚ
  moyenne : ℚ
deriving DecidableEq

/-- The `statistiques` object of the batch response (`app.py` lines
404-410). -/
structure Statistiques where
  total : ℕ
  succes : ℕ
  erreurs : ℕ
  taux_succes : ℚ
  prix_range : Option PriceRange
deriving DecidableEq

/-- The response shapes of `/predict_batch`: `badFormat` is the 400 returned
when the payload is absent or lacks the `predictions` key (lines 274-287). -/
inductive BatchResponse where
  | notLoaded
  | badFormat
  | ok (predictions : List BatchItem) (statistiques : Statistiques)
deriving DecidableEq

/-- The `prix_predit` values of the successful entries, in order
(`app.py` lines 392, 394-397). -/
def successPrices (results : List BatchItem) : List ℚ :=
  results.filterMap fun r =>
    match r with
    | .success p _ _ _ => some p
    | .error _ => none

/-- The `/predict_batch` handler (`app.py` lines 264-412). -/
def predict_batch (model_loaded : Bool) (classes : List (List Char))
    (mf : ℕ → ℚ → ℚ → ℚ → ℚ) (payload : Option (List Record)) : BatchResponse :=
  if model_loaded = false then .notLoaded
  else
    match payload with
    | none => .badFormat
    | some predictions_data =>
      let results := predictions_data.map (processItem classes mf)
      let prices := successPrices results
      let nsucc := (results.filter (fun r => r.isSuccess)).length
      let nerr := (results.filter (fun r => r.isSuccess = false)).length
      let prix_range : Option PriceRange :=
        if prices = [] then none
        else some { min := listMin prices, max := listMax prices,
                    moyenne := pyRound 2 (prices.sum / (prices.length : ℚ)) }
      let taux : ℚ :=
        if results = [] then 0
        else pyRound 1 ((nsucc : ℚ) / (results.length : ℚ) * 100)
      .ok results { total := results.length, succes := nsucc, erreurs := nerr,
                    taux_succes := taux, prix_range := prix_range }

/-- `get_domain_description` (`app.py` lines 95-106): fixed lookup with a
generic fallback. -/
def get_domain_description (domain : List Char) : List Char :=
  if domain = "Électronique".toList then
    "Appareils électroniques, composants, gadgets".toList
  else if domain = "Mode".toList then
    "Vêtements, accessoires, chaussures".toList
  else if domain = "Maison".toList then
    "Articles ménagers, décoration, mobilier".toList
  else if domain = "Sport".toList then
    "Équipements sportifs, vêtements de sport".toList
  else if domain = "Automobile".toList then
    "Pièces auto, accessoires véhicules".toList
  else if domain = "Livres".toList then
    "Ouvrages, manuels, littérature".toList
  else if domain = "Beauté".toList then
    "Cosmétiques, soins, parfums".toList
  else if domain = "Alimentation".toList then
    "Produits alimentaires, boissons".toList
  else "Secteur économique spécialisé".toList

/-- Response shapes of `GET /domains`. -/
inductive DomainsResponse where
  | notLoaded
  | ok (domaines : List (List Char × ℕ × List Char)) (total : ℕ)
deriving DecidableEq

/-- The `/domains` handler (`app.py` lines 75-93). -/
def get_domains (model_loaded : Bool) (classes : List (List Char)) :
    DomainsResponse :=
  if model_loaded = false then .notLoaded
  else
    .ok (classes.map fun d => (d, transform classes d, get_domain_description d))
      classes.length

/-- Response shapes of `GET /model_info`. -/
inductive ModelInfoResponse where
  | notLoaded
  | ok (mtype : List Char) (features : List (List Char))
      (domains : List (List Char)) (n_domains : ℕ)
      (encodage : List (List Char × ℕ))
deriving DecidableEq

/-- The `/model_info` handler (`app.py` lines 422-457), restricted to the
state-derived fields the claims mention. -/
def model_info_endpoint (model_loaded : Bool) (mtype : List Char)
    (features : List (List Char)) (classes : List (List Char)) :
    ModelInfoResponse :=
  if model_loaded = false then .notLoaded
  else
    .ok mtype features classes classes.length
      (classes.map fun d => (d, transform classes d))

/-! ## Helper lemmas -/

theorem predict_success_eq (classes : List (List Char)) (mf : ℕ → ℚ → ℚ → ℚ → ℚ)
    (dv : DomVal) (prix cout marge : ℚ) (nom : List Char) (code : ℕ)
    (hres : resolveDomainSingle classes dv = .ok nom code)
    (hval : validate_numeric_ranges prix cout marge = []) :
    predict true classes mf (some ⟨some dv, some prix, some cout, some marge⟩) =
      .success (mkSuccessBody nom code (mf code prix cout marge) prix cout marge) := by
  simp [predict, hres, hval]

example : predict true classes8 (fun _ _ _ _ => 600)
    (some ⟨some (.str "Mode".toList), some 750, some 500, some (3/5)⟩) =
    .success (mkSuccessBody "Mode".toList 5 600 750 500 (3/5)) :=
  predict_success_eq _ _ _ _ _ _ _ _ (by decide)
    (by norm_num [validate_numeric_ranges])

example : (mkSuccessBody "Mode".toList 5 600 750 500 (3/5)).strategie_prix =
    "Agressive (prix bas)".toList := by
  norm_num [mkSuccessBody, strategieOf, pyTruthyQ]

example : (mkSuccessBody "Mode".toList 5 600 750 500 (3/5)).prix_predit = 600 := by
  norm_num [mkSuccessBody, pyRound, roundHalfEven]

example : pyRound 2 (1/3) = 33/100 := by norm_num [pyRound, roundHalfEven]

example : pyRound 2 (1/200) = 0 := by norm_num [pyRound, roundHalfEven]

example : pyRound 2 (3/200) = 2/100 := by norm_num [pyRound, roundHalfEven]

theorem floor_le_roundHalfEven (q : ℚ) : ⌊q⌋ ≤ roundHalfEven q := by
  unfold roundHalfEven
  split_ifs <;> omega

theorem le_roundHalfEven {n : ℤ} {q : ℚ} (h : (n : ℚ) ≤ q) :
    n ≤ roundHalfEven q :=
  le_trans (Int.le_floor.mpr h) (floor_le_roundHalfEven q)

theorem roundHalfEven_le {m : ℤ} {q : ℚ} (h : q ≤ (m : ℚ)) :
    roundHalfEven q ≤ m := by
  have hfl : ⌊q⌋ ≤ m := Int.floor_le_floor h |>.trans_eq (Int.floor_intCast m)
  have hq : (⌊q⌋ : ℚ) ≤ q := Int.floor_le q
  unfold roundHalfEven
  split_ifs with h1 h2 h3
  · exact hfl
  · -- here `1/2 < q - ⌊q⌋`, so `q` is not an integer and `⌊q⌋ < m`
    by_contra hc
    have hm : m ≤ ⌊q⌋ := by omega
    have : q ≤ (⌊q⌋ : ℚ) := h.trans (by exact_mod_cast hm)
    linarith
  · exact hfl
  · by_contra hc
    have hm : m ≤ ⌊q⌋ := by omega
    have : q ≤ (⌊q⌋ : ℚ) := h.trans (by exact_mod_cast hm)
    linarith

theorem pyRound_eq_int_div (n : ℕ) (q : ℚ) :
    pyRound n q = (roundHalfEven (q * 10 ^ n) : ℚ) / 10 ^ n := rfl

theorem le_pyRound {n : ℕ} {z : ℤ} {q : ℚ} (h : (z : ℚ) / 10 ^ n ≤ q) :
    (z : ℚ) / 10 ^ n ≤ pyRound n q := by
  have hpow : (0 : ℚ) < 10 ^ n := by positivity
  have hz : (z : ℚ) ≤ q * 10 ^ n := by
    rw [div_le_iff₀ hpow] at h
    exact h
  have hr := le_roundHalfEven hz
  rw [pyRound_eq_int_div, div_le_div_iff₀ hpow hpow]
  have : (z : ℚ) ≤ (roundHalfEven (q * 10 ^ n) : ℚ) := by exact_mod_cast hr
  nlinarith

theorem pyRound_le {n : ℕ} {z : ℤ} {q : ℚ} (h : q ≤ (z : ℚ) / 10 ^ n) :
    pyRound n q ≤ (z : ℚ) / 10 ^ n := by
  have hpow : (0 : ℚ) < 10 ^ n := by positivity
  have hz : q * 10 ^ n ≤ (z : ℚ) := by
    rw [le_div_iff₀ hpow] at h
    exact h
  have hr := roundHalfEven_le hz
  rw [pyRound_eq_int_div, div_le_div_iff₀ hpow hpow]
  have : (roundHalfEven (q * 10 ^ n) : ℚ) ≤ (z : ℚ) := by exact_mod_cast hr
  nlinarith

theorem foldl_min_le_init (xs : List ℚ) (x : ℚ) : xs.foldl min x ≤ x := by
  induction xs generalizing x with
  | nil => simp
  | cons y ys ih => exact le_trans (ih (min x y)) (min_le_left _ _)

theorem foldl_min_le_mem {xs : List ℚ} {a : ℚ} (h : a ∈ xs) (x : ℚ) :
    xs.foldl min x ≤ a := by
  induction xs generalizing x with
  | nil => exact absurd h (List.not_mem_nil a)
  | cons y ys ih =>
    rcases List.mem_cons.mp h with h0 | h1
    · subst h0
      exact le_trans (foldl_min_le_init ys (min x a)) (min_le_right _ _)
    · exact ih h1 _

theorem listMin_le {l : List ℚ} {a : ℚ} (h : a ∈ l) : listMin l ≤ a := by
  cases l with
  | nil => exact absurd h (List.not_mem_nil a)
  | cons x xs =>
    rcases List.mem_cons.mp h with h0 | h1
    · subst h0
      exact foldl_min_le_init xs a
    · exact foldl_min_le_mem h1 x

theorem init_le_foldl_max (xs : List ℚ) (x : ℚ) : x ≤ xs.foldl max x := by
  induction xs generalizing x with
  | nil => simp
  | cons y ys ih => exact le_trans (le_max_left _ _) (ih (max x y))

theorem mem_le_foldl_max {xs : List ℚ} {a : ℚ} (h : a ∈ xs) (x : ℚ) :
    a ≤ xs.foldl max x := by
  induction xs generalizing x with
  | nil => exact absurd h (List.not_mem_nil a)
  | cons y ys ih =>
    rcases List.mem_cons.mp h with h0 | h1
    · subst h0
      exact le_trans (le_max_right _ _) (init_le_foldl_max ys (max x a))
    · exact ih h1 _

theorem le_listMax {l : List ℚ} {a : ℚ} (h : a ∈ l) : a ≤ listMax l := by
  cases l with
  | nil => exact absurd h (List.not_mem_nil a)
  | cons x xs =>
    rcases List.mem_cons.mp h with h0 | h1
    · subst h0
      exact init_le_foldl_max xs a
    · exact mem_le_foldl_max h1 x

theorem foldl_min_cases (xs : List ℚ) (x : ℚ) :
    xs.foldl min x = x ∨ xs.foldl min x ∈ xs := by
  induction xs generalizing x with
  | nil => exact Or.inl rfl
  | cons y ys ih =>
    rcases ih (min x y) with h | h
    · rcases min_choice x y with hm | hm
      · exact Or.inl (h.trans hm)
      · exact Or.inr (List.mem_cons.mpr (Or.inl (h.trans hm)))
    · exact Or.inr (List.mem_cons.mpr (Or.inr h))

theorem listMin_mem {l : List ℚ} (h : l ≠ []) : listMin l ∈ l := by
  cases l with
  | nil => exact absurd rfl h
  | cons x xs =>
    show xs.foldl min x ∈ x :: xs
    rcases foldl_min_cases xs x with h0 | h0
    · rw [h0]
      exact List.mem_cons_self _ _
    · exact List.mem_cons.mpr (Or.inr h0)

theorem foldl_max_cases (xs : List ℚ) (x : ℚ) :
    xs.foldl max x = x ∨ xs.foldl max x ∈ xs := by
  induction xs generalizing x with
  | nil => exact Or.inl rfl
  | cons y ys ih =>
    rcases ih (max x y) with h | h
    · rcases max_choice x y with hm | hm
      · exact Or.inl (h.trans hm)
      · exact Or.inr (List.mem_cons.mpr (Or.inl (h.trans hm)))
    · exact Or.inr (List.mem_cons.mpr (Or.inr h))

theorem listMax_mem {l : List ℚ} (h : l ≠ []) : listMax l ∈ l := by
  cases l with
  | nil => exact absurd rfl h
  | cons x xs =>
    show xs.foldl max x ∈ x :: xs
    rcases foldl_max_cases xs x with h0 | h0
    · rw [h0]
      exact List.mem_cons_self _ _
    · exact List.mem_cons.mpr (Or.inr h0)

theorem mul_length_le_sum {l : List ℚ} {c : ℚ} (h : ∀ a ∈ l, c ≤ a) :
    c * l.length ≤ l.sum := by
  induction l with
  | nil => simp
  | cons x xs ih =>
    have hx := h x (List.mem_cons_self _ _)
    have hxs := ih fun a ha => h a (List.mem_cons.mpr (Or.inr ha))
    simp only [List.length_cons, List.sum_cons]
    push_cast
    nlinarith

theorem sum_le_mul_length {l : List ℚ} {c : ℚ} (h : ∀ a ∈ l, a ≤ c) :
    l.sum ≤ c * l.length := by
  induction l with
  | nil => simp
  | cons x xs ih =>
    have hx := h x (List.mem_cons_self _ _)
    have hxs := ih fun a ha => h a (List.mem_cons.mpr (Or.inr ha))
    simp only [List.length_cons, List.sum_cons]
    push_cast
    nlinarith

theorem listMin_le_avg {l : List ℚ} (h : l ≠ []) :
    listMin l ≤ l.sum / l.length := by
  have hlen : (0 : ℚ) < l.length := by
    have := List.length_pos.mpr h
    exact_mod_cast this
  rw [le_div_iff₀ hlen]
  exact mul_length_le_sum fun a ha => listMin_le ha

theorem avg_le_listMax {l : List ℚ} (h : l ≠ []) :
    l.sum / l.length ≤ listMax l := by
  have hlen : (0 : ℚ) < l.length := by
    have := List.length_pos.mpr h
    exact_mod_cast this
  rw [div_le_iff₀ hlen]
  exact sum_le_mul_length fun a ha => le_listMax ha

/-! ## Claim theorems -/

/-- C6: for any three coerced numeric inputs, `validate_numeric_ranges`
reports one error per strictly negative field — each message present exactly
when its field is negative, all in the one returned list — plus the
business-rule error exactly when the production cost exceeds 90% of the
competitor price, independently of the sign checks. -/
theorem validation_reports_all_violations :
    ∀ prix_concurrent cout_production marge_voulue : ℚ,
      (err_prix ∈ validate_numeric_ranges prix_concurrent cout_production marge_voulue ↔
        prix_concurrent < 0) ∧
      (err_cout ∈ validate_numeric_ranges prix_concurrent cout_production marge_voulue ↔
        cout_production < 0) ∧
      (err_marge ∈ validate_numeric_ranges prix_concurrent cout_production marge_voulue ↔
        marge_voulue < 0) ∧
      (err_ratio ∈ validate_numeric_ranges prix_concurrent cout_production marge_voulue ↔
        cout_production > prix_concurrent * (9/10)) ∧
      (validate_numeric_ranges prix_concurrent cout_production marge_voulue).length =
        (if prix_concurrent < 0 then 1 else 0) + (if cout_production < 0 then 1 else 0) +
        (if marge_voulue < 0 then 1 else 0) +
        (if cout_production > prix_concurrent * (9/10) then 1 else 0) := by
  intro p c m
  have h1 : err_prix ≠ err_cout := by decide
  have h2 : err_prix ≠ err_marge := by decide
  have h3 : err_prix ≠ err_ratio := by decide
  have h4 : err_cout ≠ err_prix := by decide
  have h5 : err_cout ≠ err_marge := by decide
  have h6 : err_cout ≠ err_ratio := by decide
  have h7 : err_marge ≠ err_prix := by decide
  have h8 : err_marge ≠ err_cout := by decide
  have h9 : err_marge ≠ err_ratio := by decide
  have h10 : err_ratio ≠ err_prix := by decide
  have h11 : err_ratio ≠ err_cout := by decide
  have h12 : err_ratio ≠ err_marge := by decide
  unfold validate_numeric_ranges
  split_ifs <;> simp_all

/-- C9: with the model-loaded flag false, each endpoint returns the fixed
"model not loaded" error whatever the request or the (possibly junk) state
is — the flag is checked before anything else is read. -/
theorem endpoints_check_loaded_flag_first :
    ∀ (classes : List (List Char)) (mf : ℕ → ℚ → ℚ → ℚ → ℚ)
      (payload : Option Record) (bpayload : Option (List Record))
      (mtype : List Char) (features : List (List Char)),
      get_domains false classes = .notLoaded ∧
      predict false classes mf payload = .notLoaded ∧
      predict_batch false classes mf bpayload = .notLoaded ∧
      model_info_endpoint false mtype features classes = .notLoaded := by
  intro classes mf payload bpayload mtype features
  exact ⟨rfl, rfl, rfl, rfl⟩

theorem transform_lt_length {classes : List (List Char)} {nom : List Char}
    (h : nom ∈ classes) : transform classes nom < classes.length := by
  unfold transform List.indexOf
  exact List.findIdx_lt_length_of_exists ⟨nom, h, by simp⟩

theorem get_transform {classes : List (List Char)} {nom : List Char}
    (hl : transform classes nom < classes.length) :
    classes.get ⟨transform classes nom, hl⟩ = nom := by
  have hw : classes.findIdx (fun x => x == nom) < classes.length := by
    unfold transform List.indexOf at hl
    exact hl
  have hb := List.findIdx_getElem (w := hw)
  have heq := eq_of_beq hb
  simpa [transform, List.indexOf, List.get_eq_getElem] using heq

/-- C5: for every name in the encoder's class list, resolving the domain by
the name and resolving it by the name's code yield the same canonical name
and code; in particular decoding the encoded name returns the name. -/
theorem resolve_name_code_round_trip :
    ∀ (classes : List (List Char)) (nom : List Char), nom ∈ classes →
      resolveDomainSingle classes (.str nom) = .ok nom (transform classes nom) ∧
      resolveDomainSingle classes (.int ((transform classes nom : ℕ) : ℤ)) =
        .ok nom (transform classes nom) := by
  intro classes nom h
  have hlt : transform classes nom < classes.length := transform_lt_length h
  constructor
  · simp only [resolveDomainSingle]
    rw [if_pos h]
  · simp only [resolveDomainSingle]
    rw [dif_pos ⟨Int.natCast_nonneg _, by exact_mod_cast hlt⟩]
    simp only [Int.toNat_natCast]
    rw [get_transform]

theorem resolve_name_code_round_trip_witness :
    resolveDomainSingle classes8 (.str "Mode".toList) =
      .ok "Mode".toList (transform classes8 "Mode".toList) ∧
    resolveDomainSingle classes8
        (.int ((transform classes8 "Mode".toList : ℕ) : ℤ)) =
      .ok "Mode".toList (transform classes8 "Mode".toList) :=
  resolve_name_code_round_trip classes8 ("Mode".toList) (by decide)

/-- C1 counterexample: on input `"Modes"` (not an exact category name) the
single-prediction resolver matches `"Mode"` (the direction "candidate
contained in input"), while the batch resolver — which tests only "input
contained in candidate" — fails with domain-not-recognized; so the two paths
are not identical. -/
theorem fuzzy_match_paths_differ :
    resolveDomainSingle classes8 (.str "Modes".toList) = .ok "Mode".toList 5 ∧
    resolveDomainBatch classes8 (.str "Modes".toList) =
      .errNotRecognized "Modes".toList := by
  exact ⟨by decide, by decide⟩

/-- C1 (amended): the single path matches case-insensitive substrings in both
directions while the batch path matches only "input contained in candidate";
the two resolutions agree on every string input of which no category name is
a (case-insensitive) substring. -/
theorem fuzzy_match_paths_agree_when_no_reverse_match :
    ∀ (classes : List (List Char)) (s : List Char),
      (∀ d ∈ classes, pyIn (pyLower d) (pyLower s) = false) →
      resolveDomainSingle classes (.str s) = resolveDomainBatch classes (.str s) := by
  intro classes s h
  simp only [resolveDomainSingle, resolveDomainBatch]
  by_cases hmem : s ∈ classes
  · rw [if_pos hmem, if_pos hmem]
  · rw [if_neg hmem, if_neg hmem]
    have hfilter : classes.filter
        (fun d => pyIn (pyLower s) (pyLower d) || pyIn (pyLower d) (pyLower s)) =
        classes.filter (fun d => pyIn (pyLower s) (pyLower d)) := by
      apply List.filter_congr
      intro d hd
      rw [h d hd, Bool.or_false]
    rw [hfilter]

theorem fuzzy_match_paths_agree_witness :
    resolveDomainSingle classes8 (.str "Informatique".toList) =
      resolveDomainBatch classes8 (.str "Informatique".toList) :=
  fuzzy_match_paths_agree_when_no_reverse_match classes8
    ("Informatique".toList) (by decide)

theorem mkSuccessBody_strategie (nom : List Char) (code : ℕ)
    (pred prix cout marge : ℚ) (hp : 0 < prix) :
    (mkSuccessBody nom code pred prix cout marge).strategie_prix =
      strategieOf (some (pred / prix)) := by
  simp [mkSuccessBody, if_pos hp]

theorem strategieOf_some (r : ℚ) :
    strategieOf (some r) =
      if r ≠ 0 ∧ r < 9/10 then "Agressive (prix bas)".toList
      else if r ≠ 0 ∧ 11/10 < r then "Premium (prix élevé)".toList
      else "Équilibrée".toList := by
  simp only [strategieOf, pyTruthyQ, Option.getD_some, Bool.and_eq_true,
    decide_eq_true_eq, ne_eq]

/-- C2 counterexample: with competitor price 100 and model output 0 the
request succeeds and the ratio 0/100 = 0 is below 0.9, yet the strategy is
"Équilibrée" (balanced), not "Agressive": the Python guard
`ratio_concurrent and ratio_concurrent < 0.9` treats the float `0.0` as
falsy. -/
theorem strategy_not_aggressive_at_zero_ratio :
    predict true classes8 (fun _ _ _ _ => 0)
      (some ⟨some (.str "Mode".toList), some 100, some 10, some (1/2)⟩) =
      .success (mkSuccessBody "Mode".toList 5 0 100 10 (1/2)) ∧
    (mkSuccessBody "Mode".toList 5 0 100 10 (1/2)).strategie_prix =
      "Équilibrée".toList ∧
    (0 : ℚ) / 100 < 9/10 := by
  refine ⟨predict_success_eq _ _ _ _ _ _ _ _ (by decide)
    (by norm_num [validate_numeric_ranges]), ?_, by norm_num⟩
  rw [mkSuccessBody_strategie _ _ _ _ _ _ (by norm_num), strategieOf_some]
  norm_num

/-- C2 (amended): for a successful prediction with positive competitor price,
the strategy is "aggressive" exactly when the ratio is < 0.9 AND nonzero,
"premium" exactly when the ratio is > 1.1, and "balanced" otherwise (i.e.
when the ratio is 0 or lies in [0.9, 1.1]). -/
theorem strategy_thresholds :
    ∀ (nom : List Char) (code : ℕ) (pred prix cout marge : ℚ), 0 < prix →
      ((mkSuccessBody nom code pred prix cout marge).strategie_prix =
          "Agressive (prix bas)".toList ↔
        (pred / prix < 9/10 ∧ pred / prix ≠ 0)) ∧
      ((mkSuccessBody nom code pred prix cout marge).strategie_prix =
          "Premium (prix élevé)".toList ↔ 11/10 < pred / prix) ∧
      ((mkSuccessBody nom code pred prix cout marge).strategie_prix =
          "Équilibrée".toList ↔
        (pred / prix = 0 ∨ (9/10 ≤ pred / prix ∧ pred / prix ≤ 11/10))) := by
  intro nom code pred prix cout marge hp
  have e1 : "Agressive (prix bas)".toList ≠ "Premium (prix élevé)".toList := by
    decide
  have e2 : "Agressive (prix bas)".toList ≠ "Équilibrée".toList := by decide
  have e3 : "Premium (prix élevé)".toList ≠ "Équilibrée".toList := by decide
  rw [mkSuccessBody_strategie _ _ _ _ _ _ hp, strategieOf_some]
  by_cases h0 : pred / prix = 0
  · rw [if_neg (by simp [h0]), if_neg (by simp [h0])]
    refine ⟨?_, ?_, ?_⟩
    · simp [e2.symm, h0]
    · rw [h0]
      simp [e3.symm]
      norm_num
    · simp [h0]
  · by_cases h1 : pred / prix < 9/10
    · rw [if_pos ⟨h0, h1⟩]
      refine ⟨?_, ?_, ?_⟩
      · simp [h0, h1]
      · simp only [e1, false_iff]
        push_neg
        linarith
      · simp only [e2, false_iff]
        push_neg
        exact ⟨h0, fun h => absurd h (not_le.mpr h1)⟩
    · by_cases h2 : 11/10 < pred / prix
      · rw [if_neg (by tauto), if_pos ⟨h0, h2⟩]
        refine ⟨?_, ?_, ?_⟩
        · simp only [e1.symm, false_iff]
          tauto
        · simp [h2]
        · simp only [e3, false_iff]
          push_neg
          exact ⟨h0, fun _ => h2⟩
      · rw [if_neg (by tauto), if_neg (by tauto)]
        refine ⟨?_, ?_, ?_⟩
        · simp only [e2.symm, false_iff]
          tauto
        · simp only [e3.symm, false_iff]
          exact h2
        · simp only [eq_self_iff_true, true_iff]
          exact Or.inr ⟨le_of_not_lt h1, le_of_not_lt h2⟩

theorem strategy_thresholds_witness :
    ((mkSuccessBody "Mode".toList 5 600 750 500 (3/5)).strategie_prix =
        "Agressive (prix bas)".toList ↔
      ((600 : ℚ) / 750 < 9/10 ∧ (600 : ℚ) / 750 ≠ 0)) ∧
    ((mkSuccessBody "Mode".toList 5 600 750 500 (3/5)).strategie_prix =
        "Premium (prix élevé)".toList ↔ 11/10 < (600 : ℚ) / 750) ∧
    ((mkSuccessBody "Mode".toList 5 600 750 500 (3/5)).strategie_prix =
        "Équilibrée".toList ↔
      ((600 : ℚ) / 750 = 0 ∨
        (9/10 ≤ (600 : ℚ) / 750 ∧ (600 : ℚ) / 750 ≤ 11/10))) :=
  strategy_thresholds ("Mode".toList) 5 600 750 500 (3/5) (by norm_num)

/-- C3 counterexample: with competitor price 200 (nonzero) and model output 0
the request succeeds but `ratio_prix_concurrent` is `null`: the Python guard
`round(...) if ratio_concurrent else None` treats the float ratio `0.0` as
falsy, so nullness is not equivalent to a zero competitor price. -/
theorem ratio_field_null_despite_nonzero_price :
    predict true classes8 (fun _ _ _ _ => 0)
      (some ⟨some (.str "Sport".toList), some 200, some 20, some 1⟩) =
      .success (mkSuccessBody "Sport".toList 6 0 200 20 1) ∧
    (mkSuccessBody "Sport".toList 6 0 200 20 1).ratio_prix_concurrent = none ∧
    (200 : ℚ) ≠ 0 := by
  refine ⟨predict_success_eq _ _ _ _ _ _ _ _ (by decide)
    (by norm_num [validate_numeric_ranges]), ?_, by norm_num⟩
  norm_num [mkSuccessBody, pyTruthyQ]

/-- C3 (amended): for a successful prediction (competitor price nonnegative
after validation), `ratio_prix_concurrent` is null exactly when the
competitor price is 0 OR the predicted price is 0; whenever it is non-null
it equals the predicted price divided by the competitor price, rounded to 3
decimals. -/
theorem ratio_field_characterization :
    ∀ (nom : List Char) (code : ℕ) (pred prix cout marge : ℚ), 0 ≤ prix →
      ((mkSuccessBody nom code pred prix cout marge).ratio_prix_concurrent =
          none ↔ (prix = 0 ∨ pred = 0)) ∧
      (∀ q, (mkSuccessBody nom code pred prix cout marge).ratio_prix_concurrent =
          some q → q = pyRound 3 (pred / prix)) := by
  intro nom code pred prix cout marge hp
  rcases lt_or_eq_of_le hp with hpos | hzero
  · have hne : prix ≠ 0 := ne_of_gt hpos
    simp only [mkSuccessBody, if_pos hpos, pyTruthyQ]
    by_cases h0 : pred / prix = 0
    · have hpred : pred = 0 := by
        rcases div_eq_zero_iff.mp h0 with h | h
        · exact h
        · exact absurd h hne
      simp [h0, hpred]
    · have hpred : pred ≠ 0 := fun hc => h0 (by rw [hc, zero_div])
      simp [h0, hne, hpred]
  · simp [mkSuccessBody, ← hzero, pyTruthyQ]

theorem ratio_field_characterization_witness :
    ((mkSuccessBody "Mode".toList 5 600 750 500 (3/5)).ratio_prix_concurrent =
        none ↔ ((750 : ℚ) = 0 ∨ (600 : ℚ) = 0)) ∧
    (∀ q, (mkSuccessBody "Mode".toList 5 600 750 500
        (3/5)).ratio_prix_concurrent = some q →
      q = pyRound 3 ((600 : ℚ) / 750)) :=
  ratio_field_characterization ("Mode".toList) 5 600 750 500 (3/5) (by norm_num)

/-- C10: zero values pass the sign checks (only strictly negative values
draw a positivity error), and a request with competitor price 0 (and
production cost 0, as the business rule then requires) succeeds, with a null
price ratio and the "À ajuster" competitiveness classification. -/
theorem zero_values_pass_validation :
    ∀ (p c m : ℚ) (mf : ℕ → ℚ → ℚ → ℚ → ℚ),
      (err_prix ∈ validate_numeric_ranges p c m ↔ p < 0) ∧
      (err_cout ∈ validate_numeric_ranges p c m ↔ c < 0) ∧
      (err_marge ∈ validate_numeric_ranges p c m ↔ m < 0) ∧
      validate_numeric_ranges 0 0 0 = [] ∧
      ∃ body,
        predict true classes8 mf
            (some ⟨some (.str "Mode".toList), some 0, some 0, some 0⟩) =
          .success body ∧
        body.ratio_prix_concurrent = none ∧
        body.competitivite = "À ajuster".toList := by
  intro p c m mf
  have h1 : err_prix ≠ err_cout := by decide
  have h2 : err_prix ≠ err_marge := by decide
  have h3 : err_prix ≠ err_ratio := by decide
  have h4 : err_cout ≠ err_prix := by decide
  have h5 : err_cout ≠ err_marge := by decide
  have h6 : err_cout ≠ err_ratio := by decide
  have h7 : err_marge ≠ err_prix := by decide
  have h8 : err_marge ≠ err_cout := by decide
  have h9 : err_marge ≠ err_ratio := by decide
  have hval : validate_numeric_ranges 0 0 0 = [] := by
    norm_num [validate_numeric_ranges]
  refine ⟨?_, ?_, ?_, hval, mkSuccessBody "Mode".toList 5 (mf 5 0 0 0) 0 0 0,
    predict_success_eq _ _ _ _ _ _ _ _ (by decide) hval, ?_, ?_⟩
  · unfold validate_numeric_ranges
    split_ifs <;> simp_all
  · unfold validate_numeric_ranges
    split_ifs <;> simp_all
  · unfold validate_numeric_ranges
    split_ifs <;> simp_all
  · simp [mkSuccessBody, pyTruthyQ]
  · simp [mkSuccessBody, pyTruthyQ]

/-- C7 counterexample: with an absent (or falsy) JSON payload — a case the
claim covers, since all four fields are then missing — `/predict` returns the
`'Aucune donnée JSON fournie'` response (carrying the `format_attendu` type
schema), which reports no missing-field list: it is a different response from
the `missingFields` one that lists the absent fields with the
`exemple_complet` payload. -/
theorem absent_payload_reports_format_not_fields :
    predict true classes8 (fun _ _ _ _ => 0) none = .noJson ∧
    PredictResponse.noJson ≠ .missingFields
      ["domaine".toList, "prix_concurrent".toList, "cout_production".toList,
       "marge_voulue".toList] := by
  exact ⟨rfl, by simp⟩

/-- C7 (amended): a present payload missing any of the four required fields
gets the 400 `missingFields` response listing exactly the missing field
names (plus the fixed example payload); an absent payload also gets HTTP
400, but with the expected-format description instead of a missing-field
list. -/
theorem missing_fields_reported_exactly :
    ∀ (classes : List (List Char)) (mf : ℕ → ℚ → ℚ → ℚ → ℚ) (r : Record),
      (r.domaine = none ∨ r.prix_concurrent = none ∨ r.cout_production = none ∨
        r.marge_voulue = none) →
      (predict true classes mf (some r) = .missingFields (missingOf r) ∧
       ("domaine".toList ∈ missingOf r ↔ r.domaine = none) ∧
       ("prix_concurrent".toList ∈ missingOf r ↔ r.prix_concurrent = none) ∧
       ("cout_production".toList ∈ missingOf r ↔ r.cout_production = none) ∧
       ("marge_voulue".toList ∈ missingOf r ↔ r.marge_voulue = none) ∧
       missingOf r ≠ []) ∧
      predict true classes mf none = .noJson := by
  intro classes mf r h
  have n1 : "domaine".toList ≠ "prix_concurrent".toList := by decide
  have n2 : "domaine".toList ≠ "cout_production".toList := by decide
  have n3 : "domaine".toList ≠ "marge_voulue".toList := by decide
  have n4 : "prix_concurrent".toList ≠ "domaine".toList := by decide
  have n5 : "prix_concurrent".toList ≠ "cout_production".toList := by decide
  have n6 : "prix_concurrent".toList ≠ "marge_voulue".toList := by decide
  have n7 : "cout_production".toList ≠ "domaine".toList := by decide
  have n8 : "cout_production".toList ≠ "prix_concurrent".toList := by decide
  have n9 : "cout_production".toList ≠ "marge_voulue".toList := by decide
  have n10 : "marge_voulue".toList ≠ "domaine".toList := by decide
  have n11 : "marge_voulue".toList ≠ "prix_concurrent".toList := by decide
  have n12 : "marge_voulue".toList ≠ "cout_production".toList := by decide
  obtain ⟨d, p, c, m⟩ := r
  refine ⟨?_, rfl⟩
  cases d <;> cases p <;> cases c <;> cases m <;>
    simp_all [predict, missingOf]

theorem missing_fields_reported_exactly_witness :
    (predict true classes8 (fun _ _ _ _ => 0)
        (some ⟨none, some 1, none, some 2⟩) =
      .missingFields (missingOf ⟨none, some 1, none, some 2⟩) ∧
     ("domaine".toList ∈ missingOf ⟨none, some 1, none, some 2⟩ ↔
       (none : Option DomVal) = none) ∧
     ("prix_concurrent".toList ∈ missingOf ⟨none, some 1, none, some 2⟩ ↔
       (some (1 : ℚ) : Option ℚ) = none) ∧
     ("cout_production".toList ∈ missingOf ⟨none, some 1, none, some 2⟩ ↔
       (none : Option ℚ) = none) ∧
     ("marge_voulue".toList ∈ missingOf ⟨none, some 1, none, some 2⟩ ↔
       (some (2 : ℚ) : Option ℚ) = none) ∧
     missingOf ⟨none, some 1, none, some 2⟩ ≠ []) ∧
    predict true classes8 (fun _ _ _ _ => 0) none = .noJson :=
  missing_fields_reported_exactly classes8 (fun _ _ _ _ => 0)
    ⟨none, some 1, none, some 2⟩ (Or.inl rfl)

theorem length_filter_split {α : Type} (l : List α) (p : α → Bool) :
    l.length = (l.filter p).length + (l.filter fun a => p a = false).length := by
  induction l with
  | nil => rfl
  | cons x xs ih =>
    simp only [List.filter_cons, List.length_cons]
    by_cases hx : p x = true
    · have hx2 : ¬(decide (p x = false) = true) := by simp [hx]
      rw [if_pos hx, if_neg hx2]
      simp only [List.length_cons]
      omega
    · have hx2 : decide (p x = false) = true := by
        simp only [Bool.not_eq_true] at hx
        simp [hx]
      rw [if_neg hx, if_pos hx2]
      simp only [List.length_cons]
      omega

/-- C8: the batch statistics satisfy `total = succes + erreurs`, `total` is
the number of processed records, and the success rate is
`round(100 * succes / total, 1)` — `0` for an empty batch rather than a
division error. -/
theorem batch_stats_consistent :
    ∀ (classes : List (List Char)) (mf : ℕ → ℚ → ℚ → ℚ → ℚ)
      (items : List Record),
      ∃ results stats,
        predict_batch true classes mf (some items) = .ok results stats ∧
        stats.total = results.length ∧
        stats.total = stats.succes + stats.erreurs ∧
        stats.taux_succes =
          (if stats.total = 0 then 0
           else pyRound 1 (100 * (stats.succes : ℚ) / (stats.total : ℚ))) := by
  intro classes mf items
  refine ⟨_, _, rfl, rfl, ?_, ?_⟩
  · dsimp only
    exact length_filter_split _ _
  · dsimp only
    by_cases h : items.map (processItem classes mf) = []
    · simp [h]
    · have hlen : (items.map (processItem classes mf)).length ≠ 0 :=
        fun hc => h (List.length_eq_zero.mp hc)
      rw [if_neg h, if_neg hlen]
      congr 1
      ring

theorem processItem_price {classes : List (List Char)}
    {mf : ℕ → ℚ → ℚ → ℚ → ℚ} {item : Record} {p : ℚ} {nom : List Char}
    {m : ℚ} {rc : Option ℚ}
    (h : processItem classes mf item = .success p nom m rc) :
    ∃ x : ℚ, p = pyRound 2 x := by
  unfold processItem at h
  simp only [ne_eq] at h
  repeat' split at h
  all_goals
    first
    | exact BatchItem.noConfusion h
    | (injection h with h1 h2 h3 h4
       exact ⟨_, h1.symm⟩)

theorem successPrices_are_rounded (classes : List (List Char))
    (mf : ℕ → ℚ → ℚ → ℚ → ℚ) (items : List Record) :
    ∀ q ∈ successPrices (items.map (processItem classes mf)),
      ∃ x : ℚ, q = pyRound 2 x := by
  intro q hq
  unfold successPrices at hq
  rw [List.mem_filterMap] at hq
  obtain ⟨r, hr, hmr⟩ := hq
  rw [List.mem_map] at hr
  obtain ⟨item, _, rfl⟩ := hr
  cases hpi : processItem classes mf item with
  | success p nom m rc =>
    rw [hpi] at hmr
    simp only [Option.some.injEq] at hmr
    obtain ⟨x, hx⟩ := processItem_price hpi
    exact ⟨x, hmr ▸ hx⟩
  | error why =>
    rw [hpi] at hmr
    cases hmr

/-- C4: the batch price-range summary is null exactly when no record
succeeds; otherwise its min, max and mean (the mean rounded to 2 decimals)
are taken over the successful records' predicted prices and satisfy
`min ≤ mean ≤ max`. -/
theorem batch_price_range_bounds :
    ∀ (classes : List (List Char)) (mf : ℕ → ℚ → ℚ → ℚ → ℚ)
      (items : List Record),
      ∃ results stats,
        predict_batch true classes mf (some items) = .ok results stats ∧
        (stats.prix_range = none ↔ successPrices results = []) ∧
        (∀ pr, stats.prix_range = some pr →
          pr.min = listMin (successPrices results) ∧
          pr.max = listMax (successPrices results) ∧
          pr.moyenne = pyRound 2 ((successPrices results).sum /
            ((successPrices results).length : ℚ)) ∧
          pr.min ≤ pr.moyenne ∧ pr.moyenne ≤ pr.max) := by
  intro classes mf items
  refine ⟨_, _, rfl, ?_, ?_⟩
  · dsimp only
    by_cases h : successPrices (items.map (processItem classes mf)) = [] <;>
      simp [h]
  · intro pr hpr
    dsimp only at hpr
    by_cases h : successPrices (items.map (processItem classes mf)) = []
    · rw [if_pos h] at hpr
      cases hpr
    · rw [if_neg h] at hpr
      simp only [Option.some.injEq] at hpr
      subst hpr
      have hminb : listMin (successPrices (items.map (processItem classes mf))) ≤
          pyRound 2 ((successPrices (items.map (processItem classes mf))).sum /
            ((successPrices (items.map (processItem classes mf))).length : ℚ)) := by
        obtain ⟨x, hx⟩ := successPrices_are_rounded classes mf items _ (listMin_mem h)
        rw [hx, pyRound_eq_int_div]
        refine le_pyRound ?_
        rw [← pyRound_eq_int_div, ← hx]
        exact listMin_le_avg h
      have hmaxb : pyRound 2 ((successPrices (items.map (processItem classes mf))).sum /
            ((successPrices (items.map (processItem classes mf))).length : ℚ)) ≤
          listMax (successPrices (items.map (processItem classes mf))) := by
        obtain ⟨x, hx⟩ := successPrices_are_rounded classes mf items _ (listMax_mem h)
        rw [hx, pyRound_eq_int_div]
        refine pyRound_le ?_
        rw [← pyRound_eq_int_div, ← hx]
        exact avg_le_listMax h
      exact ⟨rfl, rfl, rfl, hminb, hmaxb⟩

example : resolveDomainSingle classes8 (.str "Modes".toList) =
    .ok "Mode".toList 5 := by decide

example : resolveDomainBatch classes8 (.str "Modes".toList) =
    .errNotRecognized "Modes".toList := by decide

example : resolveDomainSingle classes8 (.str "électro".toList) =
    .ok "Électronique".toList 7 := by decide

example : resolveDomainSingle classes8 (.int 3) = .ok "Livres".toList 3 := by decide

example : resolveDomainSingle classes8 (.int 99) = .errInvalidCode 99 := by decide

end PricingAPI
